import Mathlib

/-!
Verification development for the cluster-registry subsystem (`ClusterStore`)
of the Lens desktop application.

The definitions below are a shallow embedding of `src/common/cluster-store.ts`
(shipped inside `src/src/common/utils/index.ts`).  JavaScript `Map`s are
embedded as insertion-ordered association lists (`List (String × α)`) whose
`set` replaces an existing key in place and otherwise appends, matching
JS `Map.set` semantics.  The filesystem is embedded as a list of file
entries (path, contents, permission mode).  The `Cluster` class itself
(`src/main/cluster.ts`) is not part of the sources; its fields and the few
methods the store calls are modelled from the specification, as marked.
-/

set_option autoImplicit false

namespace Lens

/-- Cluster identifiers are plain strings (`type ClusterId = string`). -/
abbrev ClusterId := String

/-- Embedding of `ClusterPreferences` (the preference bag); the nested
prometheus records are flattened to tuples, which the store never inspects. -/
structure ClusterPreferences where
  terminalCWD : Option String := none
  clusterName : Option String := none
  iconOrder : Option Int := none
  icon : Option String := none
  httpsProxy : Option String := none
  hiddenMetrics : Option (List String) := none
  prometheus : Option (String × String × Nat × String) := none
  prometheusProvider : Option String := none
deriving DecidableEq

/-- Embedding of `ClusterMetadata` (free-form key/value bag); values are
embedded as strings since the store treats them opaquely. -/
abbrev ClusterMetadata := List (String × String)

/-- Embedding of `ClusterModel`: the persisted attributes of a cluster. -/
structure ClusterModel where
  id : ClusterId
  kubeConfigPath : String
  workspace : Option String := none
  contextName : Option String := none
  preferences : Option ClusterPreferences := none
  metadata : Option ClusterMetadata := none
  ownerRef : Option String := none
  accessibleNamespaces : Option (List String) := none
  kubeConfig : Option String := none
deriving DecidableEq

/-- Modelled from the spec: the per-cluster connection phase
(disconnected → connecting → connected); `src/main/cluster.ts` is not in
the sources. -/
inductive ConnectionPhase where
  | disconnected
  | connecting
  | connected
deriving DecidableEq

/-- Modelled from the spec: the volatile (non-persisted) connection state of
a cluster — `ClusterState` in `src/main/cluster.ts`, which is not in the
sources.  The store only passes this value around, never inspects it. -/
structure ClusterState where
  phase : ConnectionPhase := .disconnected
  online : Bool := false
  accessible : Bool := false
  version : String := ""
  distribution : String := ""
  lastError : String := ""
deriving DecidableEq

instance : Inhabited ClusterState := ⟨{}⟩

/-- Modelled from the spec: the `Cluster` entity (`src/main/cluster.ts` is
not in the sources).  It carries the persisted model, the enabled flag
(not part of `ClusterModel`, hence not persisted), the API server URL
resolved from the configuration context (`none` when the context is empty
or unresolvable), and the volatile connection state. -/
structure Cluster where
  model : ClusterModel
  enabled : Bool := false
  apiUrl : Option String := none
  state : ClusterState := {}
deriving DecidableEq

/-- The cluster's identifier (delegates to the model). -/
def Cluster.id (c : Cluster) : ClusterId := c.model.id

/-- The cluster's kubeconfig path (delegates to the model). -/
def Cluster.kubeConfigPath (c : Cluster) : String := c.model.kubeConfigPath

/-- Modelled from the spec: a cluster is managed exactly when its model
carries an owner-reference (`ownerRef`). -/
def Cluster.isManaged (c : Cluster) : Bool := c.model.ownerRef.isSome

/-- Modelled from the spec: `new Cluster(model)` — a freshly constructed
cluster starts disabled with default volatile state; its API URL is the
outcome of credential resolution on the model, supplied as `resolve`. -/
def Cluster.ofModel (resolve : ClusterModel → Option String) (m : ClusterModel) : Cluster :=
  { model := m, enabled := false, apiUrl := resolve m, state := {} }

/-- Modelled from the spec: `cluster.updateModel(model)` updates the
persisted attributes in place, re-resolving the API URL, while preserving
the enabled flag and the volatile connection state. -/
def Cluster.updateModel (resolve : ClusterModel → Option String) (c : Cluster)
    (m : ClusterModel) : Cluster :=
  { c with model := m, apiUrl := resolve m }

/-- Modelled from the spec: `cluster.setState(state)` replaces the volatile
connection state. -/
def Cluster.setState (c : Cluster) (st : ClusterState) : Cluster := { c with state := st }

/-- Modelled from the spec: `cluster.getState()` returns the volatile state. -/
def Cluster.getState (c : Cluster) : ClusterState := c.state

/-- Modelled from the spec: `cluster.toJSON()` serializes exactly the
persisted attributes, i.e. the `ClusterModel`. -/
def Cluster.toJSON (c : Cluster) : ClusterModel := c.model

/-! JavaScript `Map` embedding: insertion-ordered association lists. -/

/-- `Map.get`: the value at the first entry with the given key. -/
def mapGet {α : Type} (m : List (String × α)) (k : String) : Option α :=
  (m.find? (fun p => p.1 == k)).map (·.2)

/-- `Map.has`: whether an entry with the given key exists. -/
def mapHas {α : Type} (m : List (String × α)) (k : String) : Bool :=
  m.any (fun p => p.1 == k)

/-- `Map.set`: replaces the value of an existing key in place (keeping its
position, as a JS `Map` does), otherwise appends a new entry. -/
def mapSet {α : Type} (m : List (String × α)) (k : String) (v : α) : List (String × α) :=
  if mapHas m k then m.map (fun p => if p.1 == k then (k, v) else p) else m ++ [(k, v)]

/-- `Map.delete`: removes the entry with the given key. -/
def mapDelete {α : Type} (m : List (String × α)) (k : String) : List (String × α) :=
  m.filter (fun p => p.1 != k)

/-- Keys of an association list are pairwise distinct — the invariant every
JS `Map` maintains by construction. -/
def nodupKeys {α : Type} (m : List (String × α)) : Prop :=
  (m.map Prod.fst).Nodup

instance {α : Type} (m : List (String × α)) : Decidable (nodupKeys m) := by
  unfold nodupKeys; infer_instance

/-! Filesystem embedding. -/

/-- A file on disk: path, contents and permission mode bits. -/
structure FileEntry where
  path : String
  contents : String
  mode : Nat
deriving DecidableEq

/-- The disk is a list of files. -/
abbrev Disk := List FileEntry

/-- Look up the file at a path. -/
def diskRead (d : Disk) (p : String) : Option FileEntry :=
  d.find? (fun f => f.path == p)

/-- Whether a file exists at a path. -/
def diskHas (d : Disk) (p : String) : Bool :=
  d.any (fun f => f.path == p)

/-- Write a file, replacing any previous file at the same path. -/
def diskWrite (d : Disk) (p c : String) (mode : Nat) : Disk :=
  d.filter (fun f => f.path != p) ++ [⟨p, c, mode⟩]

/-- `fs.unlink`: removes the file, failing with `ENOENT` when it is absent. -/
def fsUnlink (d : Disk) (p : String) : Except String Disk :=
  if diskHas d p then .ok (d.filter (fun f => f.path != p)) else .error ("ENOENT")

/-- Modelled from the spec: `saveToAppFiles(filePath, contents, opts)`
(`src/common/utils/saveToAppFiles.ts` is not in the sources) writes the
contents to the given path with the given permission mode. -/
def saveToAppFiles (d : Disk) (p c : String) (mode : Nat) : Disk :=
  diskWrite d p c mode

/-! The `ClusterStore` itself. -/

/-- Embedding of the persisted snapshot shape `ClusterStoreModel`. -/
structure ClusterStoreModel where
  activeCluster : Option ClusterId := none
  clusters : List ClusterModel := []
deriving DecidableEq

/-- Embedding of the observable state of `ClusterStore`: the active cluster
identifier (`null` = `none`), the cluster map, and the removed-cluster map. -/
structure ClusterStore where
  activeCluster : Option ClusterId := none
  clusters : List (ClusterId × Cluster) := []
  removedClusters : List (ClusterId × Cluster) := []
deriving DecidableEq

/-- Embedding of `ClusterStore.getCustomKubeConfigPath(clusterId)`:
`path.resolve(app.getPath("userData"), "kubeconfigs", clusterId)`, with the
user-data directory passed explicitly. -/
def getCustomKubeConfigPath (userData : String) (clusterId : ClusterId) : String :=
  userData ++ "/kubeconfigs/" ++ clusterId

/-- Embedding of `ClusterStore.embedCustomKubeConfig(clusterId, kubeConfig)`
for the inline-text case: writes the pasted kubeconfig to the private path
with mode `0o600` and returns that path. -/
def embedCustomKubeConfig (userData : String) (d : Disk) (clusterId : ClusterId)
    (kubeConfig : String) : Disk × String :=
  let filePath := getCustomKubeConfigPath userData clusterId
  let fileContents := kubeConfig
  (saveToAppFiles d filePath fileContents 0o600, filePath)

/-- Embedding of `getById(id)`: `this.clusters.get(id) ?? null`. -/
def ClusterStore.getById (s : ClusterStore) (id : ClusterId) : Option Cluster :=
  mapGet s.clusters id

/-- Embedding of `setActive(clusterId)`: when the target cluster is missing
or disabled the identifier collapses to `none`, then it is stored. -/
def ClusterStore.setActive (s : ClusterStore) (clusterId : Option ClusterId) : ClusterStore :=
  let cluster := clusterId.bind (mapGet s.clusters)
  let clusterId := match cluster with
    | some c => if c.enabled then clusterId else none
    | none => none
  { s with activeCluster := clusterId }

/-- Embedding of `isActive(id)`: `this.activeCluster === id`. -/
def ClusterStore.isActive (s : ClusterStore) (id : ClusterId) : Bool :=
  s.activeCluster == some id

/-- Embedding of `addCluster(model)` for the `ClusterModel` branch: builds a
`Cluster`, enables it unless managed, and `set`s it into the map; returns
the new store together with the cluster the method returns. -/
def ClusterStore.addCluster (resolve : ClusterModel → Option String) (s : ClusterStore)
    (model : ClusterModel) : ClusterStore × Cluster :=
  let cluster := Cluster.ofModel resolve model
  let cluster := if !cluster.isManaged then { cluster with enabled := true } else cluster
  ({ s with clusters := mapSet s.clusters model.id cluster }, cluster)

/-- Embedding of `addCluster(model)` for the branch where the argument is
already a `Cluster` instance (`model instanceof Cluster`): no construction
happens, the existing instance is enabled unless managed and stored under
`model.id` (in the source the updated cluster and the argument are the same
mutated object, so keying on the argument's identifier is the same thing). -/
def ClusterStore.addClusterObj (s : ClusterStore) (model : Cluster) : ClusterStore × Cluster :=
  let cluster := if !model.isManaged then { model with enabled := true } else model
  ({ s with clusters := mapSet s.clusters model.id cluster }, cluster)

/-- Embedding of `removeById(clusterId)` with the `unlink` filesystem call
abstracted: when the cluster exists it is deleted from the map, the active
identifier is reset through `setActive(null)` if it pointed at it, and —
when the cluster's kubeconfig path is the private path for that identifier
— `unlink` is attempted and any error is swallowed (`.catch(noop)`). -/
def ClusterStore.removeByIdWith (userData : String)
    (unlink : Disk → String → Except String Disk) (s : ClusterStore) (d : Disk)
    (clusterId : ClusterId) : Except String (ClusterStore × Disk) :=
  match mapGet s.clusters clusterId with
  | none => .ok (s, d)
  | some cluster =>
    let s1 : ClusterStore := { s with clusters := mapDelete s.clusters clusterId }
    let s2 := if s1.activeCluster == some clusterId then s1.setActive none else s1
    if cluster.kubeConfigPath == getCustomKubeConfigPath userData clusterId then
      let d1 := match unlink d cluster.kubeConfigPath with
        | .ok d' => d'
        | .error _ => d
      .ok (s2, d1)
    else
      .ok (s2, d)

/-- `removeById` with the real `fs.unlink`. -/
def ClusterStore.removeById (userData : String) (s : ClusterStore) (d : Disk)
    (clusterId : ClusterId) : Except String (ClusterStore × Disk) :=
  ClusterStore.removeByIdWith userData fsUnlink s d clusterId

/-- Embedding of the body of the reconciliation loop in `fromStore`: a
cluster already in memory is updated in place from the snapshot model,
otherwise a new `Cluster` is constructed and enabled only when it is
unmanaged and its API URL resolved. -/
def fromStoreCluster (resolve : ClusterModel → Option String)
    (currentClusters : List (ClusterId × Cluster)) (clusterModel : ClusterModel) : Cluster :=
  match mapGet currentClusters clusterModel.id with
  | some c => Cluster.updateModel resolve c clusterModel
  | none =>
    let c := Cluster.ofModel resolve clusterModel
    if !c.isManaged && c.apiUrl.isSome then { c with enabled := true } else c

/-- Embedding of the protected `fromStore({activeCluster, clusters})`:
walks the snapshot building the new cluster map through `fromStoreCluster`;
clusters in memory but absent from the snapshot become the removed-cluster
map; the snapshot's active identifier is kept only when it resolves to an
enabled cluster in the new map. -/
def ClusterStore.fromStore (resolve : ClusterModel → Option String) (s : ClusterStore)
    (snap : ClusterStoreModel) : ClusterStore :=
  let currentClusters := s.clusters
  let newClusters := snap.clusters.foldl (fun acc clusterModel =>
    mapSet acc clusterModel.id (fromStoreCluster resolve currentClusters clusterModel)) []
  let removedClusters := currentClusters.filter (fun p => !(mapHas newClusters p.1))
  { activeCluster := match snap.activeCluster.bind (mapGet newClusters) with
      | some c => if c.enabled then snap.activeCluster else none
      | none => none
    clusters := newClusters
    removedClusters := removedClusters }

/-- Embedding of `toJSON()`: the persisted snapshot of the store. -/
def ClusterStore.toJSON (s : ClusterStore) : ClusterStoreModel :=
  { activeCluster := s.activeCluster
    clusters := s.clusters.map (fun p => p.2.toJSON) }

/-- Embedding of the body of the `cluster:state` broadcast listener in
`registerIpcListener` (and of the per-message step of the initial state
sync in `load`): `this.getById(clusterId)?.setState(state)`. -/
def ClusterStore.applyClusterState (s : ClusterStore) (clusterId : ClusterId)
    (state : ClusterState) : ClusterStore :=
  match mapGet s.clusters clusterId with
  | some c => { s with clusters := mapSet s.clusters clusterId (c.setState state) }
  | none => s

/-- Embedding of the renderer-side loop in `load`: applies each received
`{id, state}` message in order. -/
def ClusterStore.applyClusterStates (s : ClusterStore)
    (states : List (ClusterId × ClusterState)) : ClusterStore :=
  states.foldl (fun acc p => acc.applyClusterState p.1 p.2) s

/-- Identifiers of the enabled clusters, in registry order — the key content
of the `enabledClustersList` computed view. -/
def enabledIds (s : ClusterStore) : List ClusterId :=
  (s.clusters.filter (fun p => p.2.enabled)).map Prod.fst

/-! Concrete fixtures, used to instantiate the theorems below at concrete
inputs. -/

/-- A plain cluster model with no owner-reference. -/
def sampleModel : ClusterModel := { id := "c1", kubeConfigPath := "/kc" }

/-- A cluster model carrying an owner-reference (managed). -/
def sampleOwnedModel : ClusterModel :=
  { id := "c1", kubeConfigPath := "/kc", ownerRef := some ("ext") }

/-- An enabled cluster for `sampleModel`. -/
def sampleEnabledCluster : Cluster := { model := sampleModel, enabled := true }

/-- A disabled managed cluster for `sampleOwnedModel`. -/
def sampleManagedCluster : Cluster := { model := sampleOwnedModel, enabled := false }

/-- The empty store. -/
def emptyStore : ClusterStore := { activeCluster := none, clusters := [], removedClusters := [] }

/-- A store holding the single enabled cluster `c1`. -/
def sampleStore : ClusterStore :=
  { activeCluster := none, clusters := [(("c1"), sampleEnabledCluster)], removedClusters := [] }

/-- A snapshot holding the single model `sampleModel`. -/
def sampleSnap : ClusterStoreModel := { activeCluster := none, clusters := [sampleModel] }

/-! Basic lemmas about the map embedding. -/

theorem mapGet_cons {α : Type} (p : String × α) (t : List (String × α)) (k : String) :
    mapGet (p :: t) k = if p.1 == k then some p.2 else mapGet t k := by
  by_cases h : p.1 == k
  · simp [mapGet, List.find?_cons_of_pos _ h, h]
  · simp [mapGet, List.find?_cons_of_neg _ h, h]

theorem mapHas_cons {α : Type} (p : String × α) (t : List (String × α)) (k : String) :
    mapHas (p :: t) k = (p.1 == k || mapHas t k) := by
  simp [mapHas]

theorem mapHas_eq_isSome_mapGet {α : Type} (m : List (String × α)) (k : String) :
    mapHas m k = (mapGet m k).isSome := by
  induction m with
  | nil => rfl
  | cons p t ih =>
    rw [mapHas_cons, mapGet_cons]
    by_cases h : p.1 == k <;> simp [h, ih]

theorem mem_keys_iff_mapHas {α : Type} (m : List (String × α)) (k : String) :
    k ∈ m.map Prod.fst ↔ mapHas m k = true := by
  simp [mapHas, List.any_eq_true, List.mem_map, beq_iff_eq]

theorem mapGet_eq_none_of_not_has {α : Type} (m : List (String × α)) (k : String)
    (h : mapHas m k = false) : mapGet m k = none := by
  have := mapHas_eq_isSome_mapGet m k
  rw [h] at this
  cases he : mapGet m k with
  | none => rfl
  | some v => rw [he] at this; simp at this

theorem mapGet_append {α : Type} (m m' : List (String × α)) (k : String) :
    mapGet (m ++ m') k =
      match mapGet m k with
      | some v => some v
      | none => mapGet m' k := by
  induction m with
  | nil => rfl
  | cons p t ih =>
    rw [List.cons_append, mapGet_cons, mapGet_cons]
    by_cases hp : p.1 == k <;> simp [hp, ih]

theorem mapGet_replace_self {α : Type} (m : List (String × α)) (k : String) (v : α)
    (h : mapHas m k = true) :
    mapGet (m.map (fun p => if p.1 == k then (k, v) else p)) k = some v := by
  induction m with
  | nil => simp [mapHas] at h
  | cons p t ih =>
    rw [mapHas_cons] at h
    rw [List.map_cons]
    by_cases hp : p.1 == k
    · rw [if_pos hp, mapGet_cons]
      simp
    · rw [if_neg hp, mapGet_cons, if_neg hp]
      exact ih (by simpa [hp] using h)

theorem mapGet_replace_ne {α : Type} (m : List (String × α)) (k k' : String) (v : α)
    (h : k' ≠ k) :
    mapGet (m.map (fun p => if p.1 == k then (k, v) else p)) k' = mapGet m k' := by
  induction m with
  | nil => rfl
  | cons p t ih =>
    rw [List.map_cons]
    by_cases hp : p.1 == k
    · have hk : p.1 = k := by simpa using hp
      have hkk : k ≠ k' := fun e => h e.symm
      rw [if_pos hp, mapGet_cons, mapGet_cons, ih]
      simp [hk, hkk]
    · rw [if_neg hp, mapGet_cons, mapGet_cons, ih]

theorem keys_replace {α : Type} (m : List (String × α)) (k : String) (v : α) :
    (m.map (fun p => if p.1 == k then (k, v) else p)).map Prod.fst = m.map Prod.fst := by
  induction m with
  | nil => rfl
  | cons p t ih =>
    rw [List.map_cons]
    by_cases hp : p.1 == k
    · have hk : p.1 = k := by simpa using hp
      rw [if_pos hp, List.map_cons, List.map_cons, ih, hk]
    · rw [if_neg hp, List.map_cons, List.map_cons, ih]

theorem mapGet_mapSet_self {α : Type} (m : List (String × α)) (k : String) (v : α) :
    mapGet (mapSet m k v) k = some v := by
  unfold mapSet
  by_cases hhas : mapHas m k
  · simpa [hhas] using mapGet_replace_self m k v hhas
  · rw [if_neg (by simpa using hhas), mapGet_append,
      mapGet_eq_none_of_not_has m k (by simpa using hhas)]
    simp [mapGet_cons]

theorem mapGet_mapSet_ne {α : Type} (m : List (String × α)) (k k' : String) (v : α)
    (h : k' ≠ k) : mapGet (mapSet m k v) k' = mapGet m k' := by
  unfold mapSet
  by_cases hhas : mapHas m k
  · simpa [hhas] using mapGet_replace_ne m k k' v h
  · rw [if_neg (by simpa using hhas), mapGet_append]
    have h1 : k ≠ k' := fun e => h e.symm
    cases he : mapGet m k' with
    | some v' => simp [he]
    | none => simp [he, mapGet_cons, h1, mapGet]

theorem mapGet_mapDelete_self {α : Type} (m : List (String × α)) (k : String) :
    mapGet (mapDelete m k) k = none := by
  induction m with
  | nil => rfl
  | cons p t ih =>
    unfold mapDelete at *
    by_cases hp : p.1 == k
    · simpa [List.filter_cons, show (p.1 != k) = false by simpa using hp] using ih
    · simpa [List.filter_cons, show (p.1 != k) = true by simpa using hp, mapGet_cons, hp]
        using ih

theorem mapGet_mapDelete_ne {α : Type} (m : List (String × α)) (k k' : String)
    (h : k' ≠ k) : mapGet (mapDelete m k) k' = mapGet m k' := by
  induction m with
  | nil => rfl
  | cons p t ih =>
    unfold mapDelete at *
    by_cases hp : p.1 == k
    · have hpk : (p.1 == k') = false := by
        have hk : p.1 = k := by simpa using hp
        rw [hk]; simpa using fun e => h e.symm
      rw [List.filter_cons, if_neg (by simpa using hp)]
      rw [ih, mapGet_cons, hpk]
      simp
    · rw [List.filter_cons, if_pos (by simpa using hp)]
      rw [mapGet_cons, mapGet_cons, ih]

theorem keys_mapSet {α : Type} (m : List (String × α)) (k : String) (v : α) :
    (mapSet m k v).map Prod.fst =
      if mapHas m k then m.map Prod.fst else m.map Prod.fst ++ [k] := by
  unfold mapSet
  by_cases hhas : mapHas m k
  · rw [if_pos hhas, if_pos hhas, keys_replace]
  · rw [if_neg hhas, if_neg hhas, List.map_append]
    rfl

theorem mapHas_mapSet_self {α : Type} (m : List (String × α)) (k : String) (v : α) :
    mapHas (mapSet m k v) k = true := by
  rw [mapHas_eq_isSome_mapGet, mapGet_mapSet_self]
  rfl

theorem nodupKeys_mapSet {α : Type} (m : List (String × α)) (k : String) (v : α)
    (h : nodupKeys m) : nodupKeys (mapSet m k v) := by
  unfold nodupKeys at *
  rw [keys_mapSet]
  by_cases hhas : mapHas m k
  · simpa [hhas] using h
  · simp only [hhas, if_false]
    refine List.Nodup.append h (List.nodup_singleton k) ?_
    intro a ha hb
    simp only [List.mem_singleton] at hb
    rw [hb] at ha
    exact absurd ((mem_keys_iff_mapHas m k).mp ha) (by simpa using hhas)

theorem count_keys_mapSet {α : Type} (m : List (String × α)) (k : String) (v : α)
    (h : nodupKeys m) : ((mapSet m k v).map Prod.fst).count k = 1 := by
  rw [keys_mapSet]
  by_cases hhas : mapHas m k
  · rw [if_pos hhas]
    exact List.count_eq_one_of_mem h ((mem_keys_iff_mapHas m k).mpr hhas)
  · have hnot : k ∉ m.map Prod.fst := fun hmem =>
      absurd ((mem_keys_iff_mapHas m k).mp hmem) (by simpa using hhas)
    simp [hhas, List.count_append, List.count_eq_zero_of_not_mem hnot]

theorem replace_eq_self_of_not_has {α : Type} (m : List (String × α)) (k : String) (v : α)
    (h : mapHas m k = false) :
    m.map (fun p => if p.1 == k then (k, v) else p) = m := by
  induction m with
  | nil => rfl
  | cons p t ih =>
    rw [mapHas_cons] at h
    have hp : ¬((p.1 == k) = true) := by
      intro hc
      rw [hc] at h
      simp at h
    rw [List.map_cons, if_neg hp, ih (by simpa [hp] using h)]

theorem replace_replace {α : Type} (m : List (String × α)) (k : String) (v v' : α) :
    (m.map (fun p => if p.1 == k then (k, v) else p)).map
        (fun p => if p.1 == k then (k, v') else p) =
      m.map (fun p => if p.1 == k then (k, v') else p) := by
  rw [List.map_map]
  apply List.map_congr_left
  intro p hp
  by_cases h : p.1 = k
  · simp [h]
  · simp [h]

theorem mapHas_append {α : Type} (m m' : List (String × α)) (k : String) :
    mapHas (m ++ m') k = (mapHas m k || mapHas m' k) := by
  simp [mapHas]

theorem mapSet_mapSet {α : Type} (m : List (String × α)) (k : String) (v v' : α) :
    mapSet (mapSet m k v) k v' = mapSet m k v' := by
  unfold mapSet
  by_cases hhas : mapHas m k
  · have hhas2 : mapHas (m.map (fun p => if p.1 == k then (k, v) else p)) k = true := by
      rw [← mem_keys_iff_mapHas, keys_replace]
      exact (mem_keys_iff_mapHas m k).mpr hhas
    rw [if_pos hhas, if_pos hhas, if_pos hhas2, replace_replace]
  · have hf : mapHas m k = false := by simpa using hhas
    have hhas2 : mapHas (m ++ [(k, v)]) k = true := by
      rw [mapHas_append]
      simp [mapHas]
    rw [if_neg hhas, if_neg hhas, if_pos hhas2, List.map_append,
      replace_eq_self_of_not_has m k v' hf]
    simp

theorem mapGet_of_mem_nodup {α : Type} (m : List (String × α)) (k : String) (v : α)
    (hn : nodupKeys m) (hm : (k, v) ∈ m) : mapGet m k = some v := by
  induction m with
  | nil => simp at hm
  | cons p t ih =>
    unfold nodupKeys at hn
    rw [List.map_cons, List.nodup_cons] at hn
    rcases List.mem_cons.mp hm with h1 | h2
    · rw [← h1, mapGet_cons]
      simp
    · have hk : k ∈ t.map Prod.fst := List.mem_map.mpr ⟨(k, v), h2, rfl⟩
      have hne : ¬((p.1 == k) = true) := by
        intro hc
        exact hn.1 ((beq_iff_eq.mp hc) ▸ hk)
      rw [mapGet_cons, if_neg hne]
      exact ih hn.2 h2

theorem mapGet_filter_keyPred {α : Type} (m : List (String × α)) (q : String → Bool)
    (k : String) :
    mapGet (m.filter (fun p => q p.1)) k = if q k then mapGet m k else none := by
  induction m with
  | nil => simp [mapGet]
  | cons p t ih =>
    rw [List.filter_cons]
    by_cases hq : q p.1
    · rw [if_pos (by simpa using hq), mapGet_cons, mapGet_cons]
      by_cases hp : p.1 == k
      · have hk : p.1 = k := by simpa using hp
        rw [if_pos hp, if_pos hp, if_pos (hk ▸ hq)]
      · rw [if_neg hp, if_neg hp, ih]
    · rw [if_neg (by simpa using hq), mapGet_cons, ih]
      by_cases hp : p.1 == k
      · have hk : p.1 = k := by simpa using hp
        rw [if_neg (show ¬(q k = true) from hk ▸ (by simpa using hq)), if_pos hp]
        rw [if_neg (show ¬(q k = true) from hk ▸ (by simpa using hq))]
      · rw [if_neg hp]

theorem find?_append {α : Type} (l₁ l₂ : List α) (p : α → Bool) :
    (l₁ ++ l₂).find? p =
      match l₁.find? p with
      | some a => some a
      | none => l₂.find? p := by
  induction l₁ with
  | nil => rfl
  | cons a t ih =>
    rw [List.cons_append]
    by_cases hp : p a
    · rw [List.find?_cons_of_pos _ hp, List.find?_cons_of_pos _ hp]
    · rw [List.find?_cons_of_neg _ hp, List.find?_cons_of_neg _ hp, ih]

theorem find?_eq_of_mem_nodup {β : Type} (key : β → String) (ms : List β) (b : β)
    (hn : (ms.map key).Nodup) (hm : b ∈ ms) :
    ms.find? (fun x => key x == key b) = some b := by
  induction ms with
  | nil => simp at hm
  | cons q t ih =>
    rw [List.map_cons, List.nodup_cons] at hn
    rcases List.mem_cons.mp hm with h1 | h2
    · rw [← h1]
      exact List.find?_cons_of_pos _ (by simp)
    · have hk : key b ∈ t.map key := List.mem_map.mpr ⟨b, h2, rfl⟩
      have hne : (key q == key b) = false := by
        cases hc : (key q == key b) with
        | true => exact absurd ((beq_iff_eq.mp hc) ▸ hk) hn.1
        | false => rfl
      simp only [List.find?, hne, cond_false]
      exact ih hn.2 h2

/-- Characterization of the `fromStore` reconciliation fold: the entry at a
key is determined by the last snapshot model with that identifier. -/
theorem mapGet_foldl_mapSet {α β : Type} (key : β → String) (g : β → α) (ms : List β)
    (init : List (String × α)) (k : String) :
    mapGet (ms.foldl (fun acc b => mapSet acc (key b) (g b)) init) k =
      match ms.reverse.find? (fun b => key b == k) with
      | some b => some (g b)
      | none => mapGet init k := by
  induction ms generalizing init with
  | nil => rfl
  | cons b t ih =>
    rw [List.foldl_cons, ih, List.reverse_cons, find?_append]
    cases hf : t.reverse.find? (fun b => key b == k) with
    | some b' => rfl
    | none =>
      by_cases hb : key b == k
      · have hk : key b = k := by simpa using hb
        simp only [hf, List.find?, hb, cond_true]
        rw [← hk, mapGet_mapSet_self]
      · have hbf : (key b == k) = false := by simpa using hb
        have hkb : k ≠ key b := fun e => by simp [e] at hbf
        simp only [hf, List.find?, hbf, cond_false]
        rw [mapGet_mapSet_ne _ _ _ _ hkb]

/-- When the processed models have pairwise-distinct identifiers and none of
them collides with the accumulator, the reconciliation fold is a plain map. -/
theorem foldl_mapSet_eq_append {α β : Type} (key : β → String) (g : β → α) (ms : List β)
    (init : List (String × α)) (hn : (ms.map key).Nodup)
    (hd : ∀ b ∈ ms, mapHas init (key b) = false) :
    ms.foldl (fun acc b => mapSet acc (key b) (g b)) init =
      init ++ ms.map (fun b => (key b, g b)) := by
  induction ms generalizing init with
  | nil => simp
  | cons b t ih =>
    rw [List.map_cons, List.nodup_cons] at hn
    rw [List.foldl_cons]
    have hset : mapSet init (key b) (g b) = init ++ [(key b, g b)] := by
      unfold mapSet
      rw [if_neg (by simpa using hd b (List.mem_cons_self b t))]
    have hd' : ∀ b' ∈ t, mapHas (init ++ [(key b, g b)]) (key b') = false := by
      intro b' hb'
      rw [mapHas_append]
      have h1 : mapHas init (key b') = false := hd b' (List.mem_cons_of_mem b hb')
      have hne : key b ≠ key b' := by
        intro e
        exact hn.1 (e ▸ List.mem_map.mpr ⟨b', hb', rfl⟩)
      have h2 : mapHas [(key b, g b)] (key b') = false := by
        simp [mapHas, hne]
      rw [h1, h2]
      rfl
    rw [hset, ih (init ++ [(key b, g b)]) hn.2 hd', List.map_cons, List.append_assoc]
    rfl

theorem diskHas_erase {d : Disk} {p : String} :
    diskHas (d.filter (fun f => f.path != p)) p = false := by
  induction d with
  | nil => rfl
  | cons f t ih =>
    rw [List.filter_cons]
    by_cases hf : f.path == p
    · rw [if_neg (by simpa using hf)]
      exact ih
    · rw [if_pos (by simpa using hf)]
      rw [show diskHas (f :: t.filter (fun f => f.path != p)) p =
        (f.path == p || diskHas (t.filter (fun f => f.path != p)) p) from by simp [diskHas]]
      rw [ih]
      simpa using hf

theorem diskRead_diskWrite_self (d : Disk) (p c : String) (mode : Nat) :
    diskRead (diskWrite d p c mode) p = some ⟨p, c, mode⟩ := by
  unfold diskWrite diskRead
  induction d with
  | nil => simp [List.find?]
  | cons f t ih =>
    rw [List.filter_cons]
    by_cases hf : f.path == p
    · rw [if_neg (by simpa using hf)]
      exact ih
    · rw [if_pos (by simpa using hf), List.cons_append,
        List.find?_cons_of_neg _ (by simpa using hf)]
      exact ih

theorem mapGet_filter_nothas {α : Type} (m nc : List (String × α)) (k : String) :
    mapGet (m.filter (fun p => !(mapHas nc p.1))) k =
      if !(mapHas nc k) then mapGet m k else none :=
  mapGet_filter_keyPred m (fun x => !(mapHas nc x)) k

theorem fromStore_active_forward (o : Option ClusterId) (g : ClusterId → Option Cluster)
    (a : ClusterId)
    (h : (match o.bind g with
      | some c => if c.enabled then o else none
      | none => none) = some a) :
    o = some a ∧ ∃ c, g a = some c ∧ c.enabled = true := by
  cases o with
  | none => simp at h
  | some b =>
    change (match g b with
      | some c => if c.enabled then some b else none
      | none => none) = some a at h
    cases hg : g b with
    | none => rw [hg] at h; simp at h
    | some c =>
      rw [hg] at h
      change (if c.enabled then some b else none) = some a at h
      by_cases hc : c.enabled = true
      · rw [if_pos hc] at h
        have hba : b = a := by simpa using h
        rw [hba] at hg
        exact ⟨by rw [hba], c, hg, hc⟩
      · rw [if_neg hc] at h
        simp at h

theorem fromStore_active_backward (o : Option ClusterId) (g : ClusterId → Option Cluster)
    (a : ClusterId) (c : Cluster) (ho : o = some a) (hg : g a = some c)
    (hc : c.enabled = true) :
    (match o.bind g with
      | some c => if c.enabled then o else none
      | none => none) = some a := by
  rw [ho]
  change (match g a with
    | some c => if c.enabled then some a else none
    | none => none) = some a
  rw [hg]
  change (if c.enabled then some a else none) = some a
  rw [if_pos hc]

theorem mapGet_map_value {α : Type} (l : List (String × α)) (u : α → α) (k : String) :
    mapGet (l.map (fun p => (p.1, u p.2))) k = (mapGet l k).map u := by
  induction l with
  | nil => rfl
  | cons p t ih =>
    rw [List.map_cons, mapGet_cons, mapGet_cons]
    by_cases hp : (p.1 == k) = true
    · rw [if_pos hp, if_pos hp]
      rfl
    · rw [if_neg hp, if_neg hp, ih]

theorem filter_enabled_keys_map (u : Cluster → Cluster)
    (l : List (ClusterId × Cluster)) (hu : ∀ c, (u c).enabled = c.enabled) :
    ((l.map (fun p => (p.1, u p.2))).filter (fun p => p.2.enabled)).map Prod.fst =
      (l.filter (fun p => p.2.enabled)).map Prod.fst := by
  induction l with
  | nil => rfl
  | cons p t ih =>
    rw [List.map_cons, List.filter_cons, List.filter_cons]
    by_cases hp : p.2.enabled = true
    · rw [if_pos ((hu p.2).trans hp), if_pos hp, List.map_cons, List.map_cons, ih]
    · rw [if_neg (fun hc => hp ((hu p.2).symm.trans hc)), if_neg hp, ih]

/-- Structure of a persist-then-reload round trip: when keys agree with the
model identifiers and are pairwise distinct, reloading the serialized
snapshot rebuilds exactly the same map with each cluster updated in place
from its own serialized model. -/
theorem roundTrip_clusters (resolve : ClusterModel → Option String) (s : ClusterStore)
    (hzip : ∀ p ∈ s.clusters, (p.2).model.id = p.1)
    (hn : nodupKeys s.clusters) :
    (ClusterStore.fromStore resolve s (ClusterStore.toJSON s)).clusters =
      s.clusters.map (fun p => (p.1, Cluster.updateModel resolve p.2 p.2.model)) := by
  have hms : ((s.clusters.map (fun p => Cluster.toJSON p.2)).map ClusterModel.id).Nodup := by
    rw [List.map_map]
    have he : s.clusters.map (ClusterModel.id ∘ fun p => Cluster.toJSON p.2) =
        s.clusters.map Prod.fst :=
      List.map_congr_left (fun p hp => hzip p hp)
    rw [he]
    exact hn
  have hd : ∀ b ∈ s.clusters.map (fun p => Cluster.toJSON p.2),
      mapHas ([] : List (ClusterId × Cluster)) (ClusterModel.id b) = false :=
    fun b _ => rfl
  have h0 := foldl_mapSet_eq_append ClusterModel.id (fromStoreCluster resolve s.clusters)
    (s.clusters.map (fun p => Cluster.toJSON p.2)) [] hms hd
  have h1 : (ClusterStore.fromStore resolve s (ClusterStore.toJSON s)).clusters =
      [] ++ (s.clusters.map (fun p => Cluster.toJSON p.2)).map
        (fun b => (ClusterModel.id b, fromStoreCluster resolve s.clusters b)) := h0
  rw [List.nil_append, List.map_map] at h1
  rw [h1]
  apply List.map_congr_left
  intro p hp
  have hz : (Cluster.toJSON p.2).id = p.1 := hzip p hp
  have hgm : fromStoreCluster resolve s.clusters (Cluster.toJSON p.2) =
      Cluster.updateModel resolve p.2 p.2.model := by
    unfold fromStoreCluster
    have hz2 : (Cluster.toJSON p.2).id = p.1 := hz
    rw [hz2, mapGet_of_mem_nodup s.clusters p.1 p.2 hn hp]
    rfl
  show ((Cluster.toJSON p.2).id, fromStoreCluster resolve s.clusters (Cluster.toJSON p.2)) =
    (p.1, Cluster.updateModel resolve p.2 p.2.model)
  rw [hz, hgm]

/-- C1: for every registry state and cluster identifier, after `setActive(id)`
the active identifier equals `id` exactly when the cluster with that
identifier exists and is enabled, and is none otherwise; consequently the
resulting active identifier, when set, always references an enabled cluster. -/
theorem setActive_spec (s : ClusterStore) (id : ClusterId) :
    ((ClusterStore.setActive s (some id)).activeCluster =
      if (mapGet s.clusters id).any (fun c => c.enabled) then some id else none) ∧
    (∀ a, (ClusterStore.setActive s (some id)).activeCluster = some a →
      ∃ c, mapGet (ClusterStore.setActive s (some id)).clusters a = some c ∧
        c.enabled = true) := by
  have hmain : (ClusterStore.setActive s (some id)).activeCluster =
      if (mapGet s.clusters id).any (fun c => c.enabled) then some id else none := by
    unfold ClusterStore.setActive
    cases hg : mapGet s.clusters id with
    | none => simp [hg, Option.any]
    | some c => cases hc : c.enabled <;> simp [hg, hc, Option.any]
  refine ⟨hmain, ?_⟩
  intro a ha
  rw [hmain] at ha
  by_cases hany : (mapGet s.clusters id).any (fun c => c.enabled) = true
  · rw [if_pos hany] at ha
    have hia : id = a := by simpa using ha
    cases hg : mapGet s.clusters id with
    | none => rw [hg] at hany; simp [Option.any] at hany
    | some c =>
      rw [hg] at hany
      refine ⟨c, ?_, ?_⟩
      · rw [← hia]; exact hg
      · simpa [Option.any] using hany
  · rw [if_neg hany] at ha
    simp at ha

/-- Witness for C1: in a store holding the enabled cluster `c1`, activating
`c1` yields an active identifier referencing an enabled cluster. -/
theorem setActive_spec_witness :
    ∃ c, mapGet (ClusterStore.setActive sampleStore (some ("c1"))).clusters ("c1") = some c ∧
      c.enabled = true :=
  (setActive_spec sampleStore ("c1")).2 ("c1") (by decide)

/-- C2: adding a cluster model enables the resulting cluster exactly when the
model carries no owner-reference; for the branch taking an existing `Cluster`
instance, a managed cluster's enabled flag is left unchanged by add, so a
disabled managed cluster stays disabled. -/
theorem addCluster_enabled_spec (resolve : ClusterModel → Option String)
    (s : ClusterStore) (m : ClusterModel) (c : Cluster) :
    (∃ cl, mapGet (ClusterStore.addCluster resolve s m).1.clusters m.id = some cl ∧
      cl.enabled = m.ownerRef.isNone ∧ cl.model = m) ∧
    (c.isManaged = true →
      ∃ cl, mapGet (ClusterStore.addClusterObj s c).1.clusters c.id = some cl ∧
        cl.enabled = c.enabled) := by
  constructor
  · unfold ClusterStore.addCluster
    dsimp only
    refine ⟨_, mapGet_mapSet_self _ _ _, ?_, ?_⟩
    · cases ho : m.ownerRef with
      | none => simp [Cluster.ofModel, Cluster.isManaged, ho]
      | some r => simp [Cluster.ofModel, Cluster.isManaged, ho]
    · cases ho : m.ownerRef with
      | none => simp [Cluster.ofModel, Cluster.isManaged, ho]
      | some r => simp [Cluster.ofModel, Cluster.isManaged, ho]
  · intro hman
    unfold ClusterStore.addClusterObj
    simp only [hman, Bool.not_true, Bool.false_eq_true, if_false]
    exact ⟨c, mapGet_mapSet_self _ _ _, rfl⟩

/-- Witness for C2: adding a disabled managed cluster (owner-reference set)
leaves it disabled. -/
theorem addCluster_enabled_spec_witness :
    ∃ cl, mapGet (ClusterStore.addClusterObj emptyStore
        sampleManagedCluster).1.clusters sampleManagedCluster.id = some cl ∧
      cl.enabled = sampleManagedCluster.enabled :=
  (addCluster_enabled_spec (fun _ => none) emptyStore sampleModel
    sampleManagedCluster).2 (by decide)

/-- C8: embedding pasted kubeconfig text writes it to the private path derived
from the cluster identifier under the user-data directory, with permission
mode `0o600`, and returns that path. -/
theorem embedCustomKubeConfig_spec (userData : String) (d : Disk) (clusterId : ClusterId)
    (text : String) :
    (embedCustomKubeConfig userData d clusterId text).2 =
      getCustomKubeConfigPath userData clusterId ∧
    (embedCustomKubeConfig userData d clusterId text).2 =
      userData ++ "/kubeconfigs/" ++ clusterId ∧
    diskRead (embedCustomKubeConfig userData d clusterId text).1
        (getCustomKubeConfigPath userData clusterId) =
      some { path := getCustomKubeConfigPath userData clusterId
             contents := text
             mode := 0o600 } := by
  refine ⟨rfl, rfl, ?_⟩
  exact diskRead_diskWrite_self d _ text 0o600

/-- C9: an incoming state message is applied to the cluster found by
identifier lookup; for an unknown identifier the message is dropped and the
store is completely unchanged, and no other entry is touched. -/
theorem applyClusterState_spec (s : ClusterStore) (id : ClusterId) (st : ClusterState) :
    (mapGet s.clusters id = none → ClusterStore.applyClusterState s id st = s) ∧
    (∀ c, mapGet s.clusters id = some c →
      mapGet (ClusterStore.applyClusterState s id st).clusters id = some (c.setState st) ∧
      (ClusterStore.applyClusterState s id st).activeCluster = s.activeCluster ∧
      (ClusterStore.applyClusterState s id st).removedClusters = s.removedClusters ∧
      (∀ id', id' ≠ id → mapGet (ClusterStore.applyClusterState s id st).clusters id' =
        mapGet s.clusters id')) := by
  constructor
  · intro h
    unfold ClusterStore.applyClusterState
    rw [h]
  · intro c h
    unfold ClusterStore.applyClusterState
    rw [h]
    exact ⟨mapGet_mapSet_self _ _ _, rfl, rfl,
      fun id' hne => mapGet_mapSet_ne _ _ _ _ hne⟩

/-- Witness for C9: a state message for the unknown identifier `ghost` leaves
a one-cluster store untouched. -/
theorem applyClusterState_spec_witness :
    ClusterStore.applyClusterState sampleStore ("ghost") { online := true } = sampleStore :=
  (applyClusterState_spec sampleStore ("ghost") { online := true }).1 (by decide)

/-- C3: re-adding a model whose identifier is already present updates the
existing registry entry in place: the key sequence is unchanged, exactly one
entry carries that identifier, the entry holds the second add's cluster, and
re-adding the identical model is literally idempotent on the store. -/
theorem addCluster_idempotent_by_id (resolve : ClusterModel → Option String)
    (s : ClusterStore) (m1 m2 : ClusterModel) (hid : m2.id = m1.id)
    (hn : nodupKeys s.clusters) :
    (((ClusterStore.addCluster resolve (ClusterStore.addCluster resolve s m1).1
        m2).1.clusters.map Prod.fst).count m1.id = 1) ∧
    ((ClusterStore.addCluster resolve (ClusterStore.addCluster resolve s m1).1
        m2).1.clusters.map Prod.fst =
      (ClusterStore.addCluster resolve s m1).1.clusters.map Prod.fst) ∧
    (mapGet (ClusterStore.addCluster resolve
        (ClusterStore.addCluster resolve s m1).1 m2).1.clusters m1.id =
      some (ClusterStore.addCluster resolve (ClusterStore.addCluster resolve s m1).1 m2).2) ∧
    ((ClusterStore.addCluster resolve (ClusterStore.addCluster resolve s m1).1 m1).1 =
      (ClusterStore.addCluster resolve s m1).1) := by
  unfold ClusterStore.addCluster
  dsimp only
  rw [hid]
  refine ⟨?_, ?_, ?_, ?_⟩
  · exact count_keys_mapSet _ _ _ (nodupKeys_mapSet _ _ _ hn)
  · rw [keys_mapSet]
    rw [if_pos (mapHas_mapSet_self _ _ _)]
  · exact mapGet_mapSet_self _ _ _
  · rw [mapSet_mapSet]

/-- Witness for C3: adding two models sharing the identifier `c1` to the
empty store leaves exactly one entry for `c1`. -/
theorem addCluster_idempotent_by_id_witness :
    ((ClusterStore.addCluster (fun _ => none) (ClusterStore.addCluster (fun _ => none)
        emptyStore sampleModel).1 sampleOwnedModel).1.clusters.map Prod.fst).count
      sampleModel.id = 1 :=
  (addCluster_idempotent_by_id (fun _ => none) emptyStore sampleModel sampleOwnedModel
    (by decide) (by decide)).1

/-- C10: for a cluster present in the registry, `removeById` completes with
the registry entry deleted and the active identifier reset when needed, no
matter how the filesystem unlink turns out: the unlink error is swallowed
and never propagated to the caller. -/
theorem removeById_swallows_unlink_errors (userData : String)
    (unlink : Disk → String → Except String Disk) (s : ClusterStore) (d : Disk)
    (id : ClusterId) (c : Cluster) (h : mapGet s.clusters id = some c) :
    ∃ d', ClusterStore.removeByIdWith userData unlink s d id =
      .ok ({ activeCluster := if s.activeCluster = some id then none else s.activeCluster,
             clusters := mapDelete s.clusters id,
             removedClusters := s.removedClusters }, d') := by
  unfold ClusterStore.removeByIdWith
  rw [h]
  dsimp only
  by_cases hact : (s.activeCluster == some id) = true
  · have hacteq : s.activeCluster = some id := by simpa using hact
    rw [if_pos hact, if_pos hacteq]
    by_cases hpath : (Cluster.kubeConfigPath c == getCustomKubeConfigPath userData id) = true
    · rw [if_pos hpath]
      exact ⟨_, rfl⟩
    · rw [if_neg hpath]
      exact ⟨d, rfl⟩
  · have hactne : ¬ s.activeCluster = some id := by simpa using hact
    rw [if_neg hact, if_neg hactne]
    by_cases hpath : (Cluster.kubeConfigPath c == getCustomKubeConfigPath userData id) = true
    · rw [if_pos hpath]
      exact ⟨_, rfl⟩
    · rw [if_neg hpath]
      exact ⟨d, rfl⟩

/-- Witness for C10: removing `c1` from the one-cluster store succeeds even
when the unlink call always fails. -/
theorem removeById_swallows_unlink_errors_witness :
    ∃ d', ClusterStore.removeByIdWith ("/ud") (fun _ _ => .error ("EIO"))
        sampleStore [] ("c1") =
      .ok ({ activeCluster := if sampleStore.activeCluster = some ("c1") then none
               else sampleStore.activeCluster,
             clusters := mapDelete sampleStore.clusters ("c1"),
             removedClusters := sampleStore.removedClusters }, d') :=
  removeById_swallows_unlink_errors ("/ud") (fun _ _ => .error ("EIO")) sampleStore []
    ("c1") sampleEnabledCluster (by decide)

/-- C5 counterexample: `addCluster` enables a non-managed cluster whose
configuration context is unresolvable (its API URL resolves to none), so the
claim that no registry operation ever enables such a cluster is false. -/
theorem addCluster_enables_unresolvable_cluster :
    ∃ c, mapGet (ClusterStore.addCluster (fun _ => none) emptyStore
        sampleModel).1.clusters ("c1") = some c ∧
      c.apiUrl = none ∧ c.enabled = true :=
  ⟨{ model := sampleModel, enabled := true, apiUrl := none, state := {} },
    by decide, by decide, by decide⟩

/-- C5 amended: during `fromStore`, a freshly constructed cluster (one whose
identifier is not in memory) with an unresolvable configuration context is
never enabled; `addCluster`, by contrast, enables any non-managed cluster
regardless of context. -/
theorem fromStore_fresh_unresolvable_disabled (resolve : ClusterModel → Option String)
    (s : ClusterStore) (snap : ClusterStoreModel) (m : ClusterModel)
    (hm : m ∈ snap.clusters) (hnew : mapGet s.clusters m.id = none)
    (hres : resolve m = none)
    (hn : (snap.clusters.map ClusterModel.id).Nodup) :
    ∃ c, mapGet (ClusterStore.fromStore resolve s snap).clusters m.id = some c ∧
      c.enabled = false := by
  have hfold : mapGet (ClusterStore.fromStore resolve s snap).clusters m.id =
      some (fromStoreCluster resolve s.clusters m) := by
    unfold ClusterStore.fromStore
    dsimp only
    rw [mapGet_foldl_mapSet ClusterModel.id (fromStoreCluster resolve s.clusters)
      snap.clusters [] m.id]
    rw [find?_eq_of_mem_nodup ClusterModel.id snap.clusters.reverse m
      (by rw [List.map_reverse]; exact List.nodup_reverse.mpr hn)
      (List.mem_reverse.mpr hm)]
  refine ⟨fromStoreCluster resolve s.clusters m, hfold, ?_⟩
  unfold fromStoreCluster
  rw [hnew]
  simp [Cluster.ofModel, hres]

/-- C4: `removeById` of an unknown identifier is a no-op; removal of a known
cluster deletes its registry entry and resets the active identifier exactly
when it pointed at it; and `addCluster` followed immediately by `removeById`
leaves the registry without the identifier and without its private config
file on disk (given that the private path can be on disk only when it is
that cluster's own config path). -/
theorem removeById_spec (userData : String) (resolve : ClusterModel → Option String)
    (s : ClusterStore) (d : Disk) (m : ClusterModel)
    (hfile : diskHas d (getCustomKubeConfigPath userData m.id) = true →
      m.kubeConfigPath = getCustomKubeConfigPath userData m.id) :
    (∀ id, mapGet s.clusters id = none →
      ClusterStore.removeById userData s d id = .ok (s, d)) ∧
    (∀ id c, mapGet s.clusters id = some c →
      ∃ s' d', ClusterStore.removeById userData s d id = .ok (s', d') ∧
        s'.clusters = mapDelete s.clusters id ∧
        mapGet s'.clusters id = none ∧
        (s.activeCluster = some id → s'.activeCluster = none) ∧
        (s.activeCluster ≠ some id → s'.activeCluster = s.activeCluster)) ∧
    (∀ id c, mapGet s.clusters id = some c →
      Cluster.kubeConfigPath c = getCustomKubeConfigPath userData id →
      ∃ s' d', ClusterStore.removeById userData s d id = .ok (s', d') ∧
        diskHas d' (getCustomKubeConfigPath userData id) = false) ∧
    (∃ s' d', ClusterStore.removeById userData
        (ClusterStore.addCluster resolve s m).1 d m.id = .ok (s', d') ∧
      mapGet s'.clusters m.id = none ∧
      diskHas d' (getCustomKubeConfigPath userData m.id) = false) := by
  refine ⟨?_, ?_, ?_, ?_⟩
  · intro id h
    unfold ClusterStore.removeById ClusterStore.removeByIdWith
    rw [h]
  · intro id c h
    unfold ClusterStore.removeById ClusterStore.removeByIdWith
    rw [h]
    dsimp only
    by_cases hact : (s.activeCluster == some id) = true
    · have hacteq : s.activeCluster = some id := by simpa using hact
      rw [if_pos hact]
      by_cases hpath : (Cluster.kubeConfigPath c == getCustomKubeConfigPath userData id) = true
      · rw [if_pos hpath]
        exact ⟨_, _, rfl, rfl, mapGet_mapDelete_self _ _, fun _ => rfl,
          fun hne => absurd hacteq hne⟩
      · rw [if_neg hpath]
        exact ⟨_, _, rfl, rfl, mapGet_mapDelete_self _ _, fun _ => rfl,
          fun hne => absurd hacteq hne⟩
    · have hactne : s.activeCluster ≠ some id := by simpa using hact
      rw [if_neg hact]
      by_cases hpath : (Cluster.kubeConfigPath c == getCustomKubeConfigPath userData id) = true
      · rw [if_pos hpath]
        exact ⟨_, _, rfl, rfl, mapGet_mapDelete_self _ _, fun he => absurd he hactne,
          fun _ => rfl⟩
      · rw [if_neg hpath]
        exact ⟨_, _, rfl, rfl, mapGet_mapDelete_self _ _, fun he => absurd he hactne,
          fun _ => rfl⟩
  · intro id c h hpe
    have hdisk : diskHas (match fsUnlink d (getCustomKubeConfigPath userData id) with
        | .ok d' => d'
        | .error _ => d) (getCustomKubeConfigPath userData id) = false := by
      unfold fsUnlink
      by_cases hd : diskHas d (getCustomKubeConfigPath userData id) = true
      · rw [if_pos hd]
        exact diskHas_erase
      · rw [if_neg hd]
        simpa using hd
    have hbeq : (Cluster.kubeConfigPath c == getCustomKubeConfigPath userData id) = true := by
      rw [hpe]
      simp
    unfold ClusterStore.removeById ClusterStore.removeByIdWith
    rw [h]
    dsimp only
    rw [hpe]
    rw [if_pos (show (getCustomKubeConfigPath userData id ==
      getCustomKubeConfigPath userData id) = true by simp)]
    by_cases hact : (s.activeCluster == some id) = true
    · rw [if_pos hact]
      exact ⟨_, _, rfl, hdisk⟩
    · rw [if_neg hact]
      exact ⟨_, _, rfl, hdisk⟩
  · have hadd : mapGet (ClusterStore.addCluster resolve s m).1.clusters m.id =
        some (ClusterStore.addCluster resolve s m).2 := by
      unfold ClusterStore.addCluster
      dsimp only
      exact mapGet_mapSet_self _ _ _
    have hkcp : Cluster.kubeConfigPath (ClusterStore.addCluster resolve s m).2 =
        m.kubeConfigPath := by
      unfold ClusterStore.addCluster
      dsimp only
      by_cases hman : (!(Cluster.ofModel resolve m).isManaged) = true
      · rw [if_pos hman]; rfl
      · rw [if_neg hman]; rfl
    have hdisk1 : (m.kubeConfigPath == getCustomKubeConfigPath userData m.id) = true →
        diskHas (match fsUnlink d m.kubeConfigPath with
          | .ok d' => d'
          | .error _ => d) (getCustomKubeConfigPath userData m.id) = false := by
      intro hpath
      have hmp : m.kubeConfigPath = getCustomKubeConfigPath userData m.id := by
        simpa using hpath
      rw [hmp]
      unfold fsUnlink
      by_cases hd : diskHas d (getCustomKubeConfigPath userData m.id) = true
      · rw [if_pos hd]
        exact diskHas_erase
      · rw [if_neg hd]
        simpa using hd
    have hdisk2 : ¬((m.kubeConfigPath == getCustomKubeConfigPath userData m.id) = true) →
        diskHas d (getCustomKubeConfigPath userData m.id) = false := by
      intro hpath
      cases hd : diskHas d (getCustomKubeConfigPath userData m.id) with
      | false => rfl
      | true => exact absurd (by rw [hfile hd]; simp) hpath
    unfold ClusterStore.removeById ClusterStore.removeByIdWith
    rw [hadd]
    dsimp only
    rw [hkcp]
    by_cases hact :
        ((ClusterStore.addCluster resolve s m).1.activeCluster == some m.id) = true
    · rw [if_pos hact]
      by_cases hpath : (m.kubeConfigPath == getCustomKubeConfigPath userData m.id) = true
      · rw [if_pos hpath]
        exact ⟨_, _, rfl, mapGet_mapDelete_self _ _, hdisk1 hpath⟩
      · rw [if_neg hpath]
        exact ⟨_, _, rfl, mapGet_mapDelete_self _ _, hdisk2 hpath⟩
    · rw [if_neg hact]
      by_cases hpath : (m.kubeConfigPath == getCustomKubeConfigPath userData m.id) = true
      · rw [if_pos hpath]
        exact ⟨_, _, rfl, mapGet_mapDelete_self _ _, hdisk1 hpath⟩
      · rw [if_neg hpath]
        exact ⟨_, _, rfl, mapGet_mapDelete_self _ _, hdisk2 hpath⟩

/-- Witness for C4: add then remove of `c1` on the empty store and empty disk
leaves no registry entry and no private config file. -/
theorem removeById_spec_witness :
    ∃ s' d', ClusterStore.removeById ("/ud")
        (ClusterStore.addCluster (fun _ => none) emptyStore sampleModel).1 []
        sampleModel.id = .ok (s', d') ∧
      mapGet s'.clusters sampleModel.id = none ∧
      diskHas d' (getCustomKubeConfigPath ("/ud") sampleModel.id) = false :=
  (removeById_spec ("/ud") (fun _ => none) emptyStore [] sampleModel (by decide)).2.2.2

/-- C6: reloading via `fromStore` moves every in-memory cluster absent from
the snapshot into the removed-cluster map (not silently dropped), updates
every cluster present in both in place — preserving its enabled flag and
live connection state —, and keeps the snapshot's active identifier exactly
when it resolves to an enabled cluster in the new set, collapsing it to
none otherwise. -/
theorem fromStore_reconciliation_spec (resolve : ClusterModel → Option String)
    (s : ClusterStore) (snap : ClusterStoreModel)
    (hsnap : (snap.clusters.map ClusterModel.id).Nodup) :
    (∀ id c, mapGet s.clusters id = some c →
      (∀ m ∈ snap.clusters, m.id ≠ id) →
      mapGet (ClusterStore.fromStore resolve s snap).removedClusters id = some c) ∧
    (∀ m c, m ∈ snap.clusters → mapGet s.clusters m.id = some c →
      mapGet (ClusterStore.fromStore resolve s snap).clusters m.id =
        some (Cluster.updateModel resolve c m) ∧
      (Cluster.updateModel resolve c m).state = c.state ∧
      (Cluster.updateModel resolve c m).enabled = c.enabled) ∧
    (∀ a, (ClusterStore.fromStore resolve s snap).activeCluster = some a →
      snap.activeCluster = some a ∧
      ∃ c, mapGet (ClusterStore.fromStore resolve s snap).clusters a = some c ∧
        c.enabled = true) ∧
    (∀ a c, snap.activeCluster = some a →
      mapGet (ClusterStore.fromStore resolve s snap).clusters a = some c →
      c.enabled = true →
      (ClusterStore.fromStore resolve s snap).activeCluster = some a) := by
  have hget : ∀ k, mapGet (ClusterStore.fromStore resolve s snap).clusters k =
      match snap.clusters.reverse.find? (fun b => b.id == k) with
      | some b => some (fromStoreCluster resolve s.clusters b)
      | none => none := by
    intro k
    have h0 := mapGet_foldl_mapSet ClusterModel.id (fromStoreCluster resolve s.clusters)
      snap.clusters [] k
    cases hf : snap.clusters.reverse.find? (fun b => b.id == k) with
    | some b => rw [hf] at h0; exact h0
    | none => rw [hf] at h0; exact h0
  refine ⟨?_, ?_, ?_, ?_⟩
  · intro id c h hnone
    have hfind : snap.clusters.reverse.find? (fun b => b.id == id) = none := by
      rw [List.find?_eq_none]
      intro m hm
      have := hnone m (List.mem_reverse.mp hm)
      simpa using this
    have hnohas : mapHas (ClusterStore.fromStore resolve s snap).clusters id = false := by
      rw [mapHas_eq_isSome_mapGet, hget id, hfind]
      rfl
    have h1 := mapGet_filter_nothas s.clusters
      (ClusterStore.fromStore resolve s snap).clusters id
    rw [hnohas] at h1
    simp only [Bool.not_false, if_true] at h1
    exact h1.trans h
  · intro m c hm h
    refine ⟨?_, rfl, rfl⟩
    rw [hget m.id, find?_eq_of_mem_nodup ClusterModel.id snap.clusters.reverse m
      (by rw [List.map_reverse]; exact List.nodup_reverse.mpr hsnap)
      (List.mem_reverse.mpr hm)]
    show some (fromStoreCluster resolve s.clusters m) = _
    unfold fromStoreCluster
    rw [h]
  · intro a ha
    exact fromStore_active_forward snap.activeCluster
      (mapGet (ClusterStore.fromStore resolve s snap).clusters) a ha
  · intro a c hsa hg hc
    exact fromStore_active_backward snap.activeCluster
      (mapGet (ClusterStore.fromStore resolve s snap).clusters) a c hsa hg hc

/-- Witness for C6: reloading the one-model snapshot into the store holding
the enabled cluster `c1` updates that cluster in place. -/
theorem fromStore_reconciliation_spec_witness :
    mapGet (ClusterStore.fromStore (fun _ => none) sampleStore sampleSnap).clusters
        sampleModel.id =
      some (Cluster.updateModel (fun _ => none) sampleEnabledCluster sampleModel) ∧
    (Cluster.updateModel (fun _ => none) sampleEnabledCluster sampleModel).state =
      sampleEnabledCluster.state ∧
    (Cluster.updateModel (fun _ => none) sampleEnabledCluster sampleModel).enabled =
      sampleEnabledCluster.enabled :=
  ((fromStore_reconciliation_spec (fun _ => none) sampleStore sampleSnap
    (by decide)).2.1) sampleModel sampleEnabledCluster (by decide) (by decide)

/-- Witness for C5 amended: reloading a snapshot holding one unresolvable
model into the empty store leaves that cluster disabled. -/
theorem fromStore_fresh_unresolvable_disabled_witness :
    ∃ c, mapGet (ClusterStore.fromStore (fun _ => none) emptyStore
        sampleSnap).clusters sampleModel.id = some c ∧ c.enabled = false :=
  fromStore_fresh_unresolvable_disabled (fun _ => none) emptyStore sampleSnap sampleModel
    (by decide) (by decide) (by decide) (by decide)

/-- C7: serializing a registry with `toJSON` and reloading the snapshot with
`fromStore` reproduces the same enabled cluster identifiers and the same
active cluster identifier, for every store satisfying the registry
invariants (map keys equal the stored model identifiers and are distinct,
and the active identifier, when set, references an enabled cluster). -/
theorem toJSON_fromStore_roundTrip (resolve : ClusterModel → Option String)
    (s : ClusterStore)
    (hzip : ∀ p ∈ s.clusters, (p.2).model.id = p.1)
    (hn : nodupKeys s.clusters)
    (hactive : ∀ a, s.activeCluster = some a →
      ∃ c, mapGet s.clusters a = some c ∧ c.enabled = true) :
    enabledIds (ClusterStore.fromStore resolve s (ClusterStore.toJSON s)) = enabledIds s ∧
    (ClusterStore.fromStore resolve s (ClusterStore.toJSON s)).activeCluster =
      s.activeCluster := by
  have hcl := roundTrip_clusters resolve s hzip hn
  constructor
  · unfold enabledIds
    rw [hcl]
    exact filter_enabled_keys_map (fun c => Cluster.updateModel resolve c c.model)
      s.clusters (fun c => rfl)
  · cases hsa : s.activeCluster with
    | none =>
      cases hres : (ClusterStore.fromStore resolve s (ClusterStore.toJSON s)).activeCluster with
      | none => rfl
      | some a =>
        have hfwd := fromStore_active_forward (ClusterStore.toJSON s).activeCluster
          (mapGet (ClusterStore.fromStore resolve s (ClusterStore.toJSON s)).clusters) a hres
        have h1 : s.activeCluster = some a := hfwd.1
        rw [hsa] at h1
        exact absurd h1 (by simp)
    | some a =>
      rcases hactive a hsa with ⟨c, hgc, hc⟩
      have hg2 : mapGet (ClusterStore.fromStore resolve s (ClusterStore.toJSON s)).clusters a =
          some (Cluster.updateModel resolve c c.model) := by
        rw [hcl]
        rw [show mapGet (s.clusters.map
            (fun p => (p.1, Cluster.updateModel resolve p.2 p.2.model))) a =
            (mapGet s.clusters a).map (fun c => Cluster.updateModel resolve c c.model) from
          mapGet_map_value s.clusters (fun c => Cluster.updateModel resolve c c.model) a]
        rw [hgc]
        rfl
      exact fromStore_active_backward (ClusterStore.toJSON s).activeCluster
        (mapGet (ClusterStore.fromStore resolve s (ClusterStore.toJSON s)).clusters) a
        (Cluster.updateModel resolve c c.model) hsa hg2 hc

/-- Witness for C7: the one-cluster store round-trips to the same enabled
identifiers and active identifier. -/
theorem toJSON_fromStore_roundTrip_witness :
    enabledIds (ClusterStore.fromStore (fun _ => none) sampleStore
        (ClusterStore.toJSON sampleStore)) = enabledIds sampleStore ∧
    (ClusterStore.fromStore (fun _ => none) sampleStore
        (ClusterStore.toJSON sampleStore)).activeCluster = sampleStore.activeCluster := by
  refine toJSON_fromStore_roundTrip (fun _ => none) sampleStore ?_ (by decide) ?_
  · intro p hp
    have h1 : p = (("c1"), sampleEnabledCluster) := by
      simpa [sampleStore] using hp
    rw [h1]
    decide
  · intro a ha
    rw [show sampleStore.activeCluster = none from rfl] at ha
    exact absurd ha (by simp)

end Lens
